import Mathlib

/-
Verification of the `e2ee.js` core (`src/e2ee.ts`) against its specification.

Modelling conventions (a shallow embedding of the TypeScript class `E2EE`):

* JavaScript strings that only carry byte data (the two fields of the
  ciphertext envelope) are modelled as `List Nat` of UTF-16 code units;
  `String.fromCharCode` truncates its argument to 16 bits, and placing a
  code unit into a `Uint8Array` truncates it to 8 bits, both made explicit.
* Plaintext strings are modelled as lists of Unicode scalar values
  (`List Nat`); `TextEncoder`/`TextDecoder` are modelled by an executable
  UTF-8 encoder/decoder defined below, the decoder following the WHATWG
  algorithm: lead-specific bounds on the second byte, and one U+FFFD per
  maximal malformed subpart, with a failing byte reprocessed as the start
  of the next sequence.
* Peer identifiers (`string | symbol` in the source, with the private
  per-instance `#unicast = Symbol("unicast")` as the default) are modelled
  by the sum type `PeerId`: a JavaScript symbol is never equal to any
  string property key, which the two disjoint constructors capture.
* The `#sharedSecrets` store is a plain object `{}`, so property reads and
  writes follow the prototype chain: `SecretStore` keeps the own entries
  together with the `[[Prototype]]` state, `readSecret` models the read —
  including the truthy inherited `Object.prototype` members at keys such
  as `"constructor"`, the `"__proto__"` accessor, and the brand-checked
  `CryptoKey.prototype` accessors once the prototype has been replaced —
  and `setSecret` models the write, including the inherited `"__proto__"`
  setter that replaces the prototype instead of creating an entry.
* The WebCrypto provider (`deps.crypto`) is external to the repository.
  Its deterministic algorithms are modelled ideally: an ECDH derived key
  is the unordered pair of the two key seeds together with the requested
  AES key length, and AES-CTR is a stream cipher XOR-ing the data with a
  concrete keystream (`ksByte`).  Non-deterministic or fallible provider
  steps (key generation randomness and rejection, `getRandomValues`,
  `deriveKey` rejection) are passed to each operation as explicit oracle
  arguments, mirroring the `await` points of the source.
* `JSON.stringify`/`JSON.parse` of the fixed-shape records used by the
  source (the `{buffer, counter}` envelope and the JWK key texts) are
  modelled as the faithful identity transport of those records; `Envelope`,
  `PubKeyText` and `PrivKeyText` are the parsed forms.
* Each class method becomes a function `E2EEState → args → oracle args →
  Except JsError result × E2EEState`; a thrown exception is `.error`, and
  the returned state is the instance state after the call.
-/

namespace E2EE

/-! ## Parameters, dependencies, constructor (`src/e2ee.ts` lines 1-33) -/

/-- `Params` of `src/e2ee.ts` (line 2): counter bit-length, ECDH curve name,
AES key length. -/
structure Params where
  counterLength : Nat
  namedCurve : String
  keyLength : Nat
  deriving DecidableEq

/-- The opaque crypto implementation handle of `Deps` (line 1); only its
identity matters to the core, so it is a bare tag. -/
structure Deps where
  crypto : Nat
  deriving DecidableEq

/-- The process-wide `globalThis.crypto` implementation tag. -/
def globalThisCrypto : Nat := 0

/-- Default `#deps` field initialiser (line 16). -/
def defaultDeps : Deps := { crypto := globalThisCrypto }

/-- Default `#params` field initialiser (lines 18-22). -/
def defaultParams : Params :=
  { counterLength := 64, namedCurve := "P-256", keyLength := 256 }

/-- A possibly-partial `deps` object passed to the constructor; at runtime
`Object.assign` copies only the properties that are present. -/
structure DepsInit where
  crypto : Option Nat := none
  deriving DecidableEq

/-- A possibly-partial `params` object passed to the constructor. -/
structure ParamsInit where
  counterLength : Option Nat := none
  namedCurve : Option String := none
  keyLength : Option Nat := none
  deriving DecidableEq

/-- The `options` argument of the constructor (line 30). -/
structure OptionsInit where
  deps : Option DepsInit := none
  params : Option ParamsInit := none
  deriving DecidableEq

/-- `Object.assign(this.#deps, options?.deps)` (line 31): fields present in
the source object overwrite the target. -/
def assignDeps (base : Deps) : Option DepsInit → Deps
  | none => base
  | some d => { crypto := d.crypto.getD base.crypto }

/-- `Object.assign(this.#params, options?.params)` (line 32). -/
def assignParams (base : Params) : Option ParamsInit → Params
  | none => base
  | some p =>
    { counterLength := p.counterLength.getD base.counterLength
      namedCurve := p.namedCurve.getD base.namedCurve
      keyLength := p.keyLength.getD base.keyLength }

/-! ## Keys and the ideal provider algorithms -/

/-- An ECDH public `CryptoKey`: its curve and the generation seed that
identifies the underlying key material. -/
structure PubKey where
  curve : String
  seed : Nat
  deriving DecidableEq

/-- An ECDH private `CryptoKey`: curve, key-material seed, the
`extractable` flag and the usage list it was created with. -/
structure PrivKey where
  curve : String
  seed : Nat
  extractable : Bool
  usages : List String
  deriving DecidableEq

/-- A `CryptoKeyPair`. -/
structure KeyPair where
  privateKey : PrivKey
  publicKey : PubKey
  deriving DecidableEq

/-- A derived AES-CTR `CryptoKey`.  ECDH agreement between the pair with
seed `a` and the pair with seed `b` yields the same shared point from
either side, so the derived key is identified by the unordered pair of
seeds plus the requested AES key length. -/
structure SymKey where
  length : Nat
  a : Nat
  b : Nat
  deriving DecidableEq

/-- Ideal model of `crypto.subtle.deriveKey({name:"ECDH", public}, privateKey,
{name:"AES-CTR", length}, false, ["encrypt","decrypt"])` (lines 53-59). -/
def deriveKey (priv : PrivKey) (pub : PubKey) (keyLength : Nat) : SymKey :=
  { length := keyLength, a := min priv.seed pub.seed, b := max priv.seed pub.seed }

/-- Numeric value of a byte string, used to mix the counter into the
keystream. -/
def counterVal : List Nat → Nat
  | [] => 0
  | b :: bs => b % 256 + 256 * counterVal bs

/-- Keystream byte `i` of the ideal AES-CTR model: a concrete mixing of the
key, the counter block, and the counter bit-length.  Any function here gives
a correct stream cipher; this one is cheap enough for kernel evaluation. -/
def ksByte (key : SymKey) (counter : List Nat) (counterLength : Nat) (i : Nat) : Nat :=
  (key.length * 3 + key.a * 5 + key.b * 7 + counterVal counter * 11
    + counterLength * 13 + i * 17) % 256

/-- The ideal CTR keystream XOR starting at stream position `i`. -/
def ctrStream (key : SymKey) (counter : List Nat) (counterLength : Nat) :
    Nat → List Nat → List Nat
  | _, [] => []
  | i, b :: bs =>
    (b ^^^ ksByte key counter counterLength i) ::
      ctrStream key counter counterLength (i + 1) bs

/-- Ideal model of `crypto.subtle.encrypt({name:"AES-CTR", counter, length},
key, data)`; AES-CTR decryption is the identical keystream XOR, so the same
function models `crypto.subtle.decrypt` (lines 66-74 and 82-90). -/
def ctrCrypt (key : SymKey) (counter : List Nat) (counterLength : Nat)
    (data : List Nat) : List Nat :=
  ctrStream key counter counterLength 0 data

/-! ## UTF-8 (`TextEncoder`/`TextDecoder`, lines 172-178) -/

/-- UTF-8 encoding of one Unicode scalar value (meaningful for
`c < 0x110000`). -/
def utf8EncodeChar (c : Nat) : List Nat :=
  if c < 128 then [c]
  else if c < 2048 then [192 + c / 64, 128 + c % 64]
  else if c < 65536 then [224 + c / 4096, 128 + c / 64 % 64, 128 + c % 64]
  else [240 + c / 262144, 128 + c / 4096 % 64, 128 + c / 64 % 64, 128 + c % 64]

/-- `new TextEncoder().encode(text)` (line 177): UTF-8 bytes of a list of
scalar values. -/
def utf8Encode : List Nat → List Nat
  | [] => []
  | c :: cs => utf8EncodeChar c ++ utf8Encode cs

/-- A Unicode scalar value: in range and not a surrogate. -/
def ValidScalar (c : Nat) : Prop :=
  c < 1114112 ∧ ¬(55296 ≤ c ∧ c < 57344)

instance (c : Nat) : Decidable (ValidScalar c) := by
  unfold ValidScalar
  infer_instance

/-- Decode one step of the WHATWG UTF-8 decoder from the front of a byte
list, returning the scalar value (or U+FFFD for a maximal malformed
subpart) and the remaining bytes.  The second byte of a multi-byte
sequence is checked against the lead-specific bounds (0xE0 requires
0xA0-0xBF, 0xED allows only 0x80-0x9F, 0xF0 requires 0x90-0xBF, 0xF4
allows only 0x80-0x8F), which rejects overlong encodings, surrogates and
values above U+10FFFF at the earliest byte; a failing byte is not consumed
(it is reprocessed as the start of the next sequence), while a sequence
truncated by the end of input is consumed as one error. -/
def decodeOne : List Nat → Nat × List Nat
  | [] => (65533, [])
  | b :: bs =>
    if b < 128 then (b, bs)
    else if b < 194 then (65533, bs)
    else if b < 224 then
      match bs with
      | [] => (65533, [])
      | b2 :: bs2 =>
        if 128 ≤ b2 ∧ b2 ≤ 191 then ((b - 192) * 64 + (b2 - 128), bs2)
        else (65533, b2 :: bs2)
    else if b < 240 then
      match bs with
      | [] => (65533, [])
      | b2 :: bs2 =>
        if 128 ≤ b2 ∧ b2 ≤ 191 ∧ (b = 224 → 160 ≤ b2) ∧ (b = 237 → b2 ≤ 159) then
          match bs2 with
          | [] => (65533, [])
          | b3 :: bs3 =>
            if 128 ≤ b3 ∧ b3 ≤ 191 then
              ((b - 224) * 4096 + (b2 - 128) * 64 + (b3 - 128), bs3)
            else (65533, b3 :: bs3)
        else (65533, b2 :: bs2)
    else if b < 245 then
      match bs with
      | [] => (65533, [])
      | b2 :: bs2 =>
        if 128 ≤ b2 ∧ b2 ≤ 191 ∧ (b = 240 → 144 ≤ b2) ∧ (b = 244 → b2 ≤ 143) then
          match bs2 with
          | [] => (65533, [])
          | b3 :: bs3 =>
            if 128 ≤ b3 ∧ b3 ≤ 191 then
              match bs3 with
              | [] => (65533, [])
              | b4 :: bs4 =>
                if 128 ≤ b4 ∧ b4 ≤ 191 then
                  ((b - 240) * 262144 + (b2 - 128) * 4096 + (b3 - 128) * 64
                    + (b4 - 128), bs4)
                else (65533, b4 :: bs4)
            else (65533, b3 :: bs3)
        else (65533, b2 :: bs2)
    else (65533, bs)

/-- Fuel-indexed UTF-8 decoding loop; `fuel` bounds the number of decoded
characters, and each step consumes at least one byte, so any fuel of at
least the byte count gives the full decoding. -/
def utf8DecodeAux : Nat → List Nat → List Nat
  | 0, _ => []
  | _ + 1, [] => []
  | fuel + 1, b :: bs =>
    (decodeOne (b :: bs)).1 :: utf8DecodeAux fuel (decodeOne (b :: bs)).2

/-- `new TextDecoder().decode(buffer)` (line 173): UTF-8 decoding with
U+FFFD replacement of malformed bytes. -/
def utf8Decode (l : List Nat) : List Nat :=
  utf8DecodeAux l.length l

/-! ## Errors -/

/-- A thrown JavaScript exception, distinguished the way the source
distinguishes them: `jsError msg` is a `throw new Error(msg)` appearing in
`src/e2ee.ts`; `typeError msg` is a runtime `TypeError` (property access on
`null`); `cryptoError code` is a rejection coming out of an awaited
WebCrypto call. -/
inductive JsError where
  | jsError (msg : String)
  | typeError (msg : String)
  | cryptoError (code : Nat)
  deriving DecidableEq

instance {e a : Type} [DecidableEq e] [DecidableEq a] : DecidableEq (Except e a) :=
  fun x y =>
    match x, y with
    | .error u, .error v =>
      if h : u = v then .isTrue (by rw [h]) else .isFalse (by simp [h])
    | .error _, .ok _ => .isFalse (by simp)
    | .ok _, .error _ => .isFalse (by simp)
    | .ok u, .ok v =>
      if h : u = v then .isTrue (by rw [h]) else .isFalse (by simp [h])

/-- The messages of the precondition-check throws of `src/e2ee.ts`; the
spec's `StateError` class consists exactly of these. -/
def stateErrorMessages : List String :=
  ["Key pair already exists", "Key pair not generated", "Shared secret not set"]

/-- Whether an exception is one of the spec's `StateError`s. -/
def JsError.isStateError : JsError → Bool
  | .jsError msg => stateErrorMessages.contains msg
  | _ => false

/-! ## Peer identifiers and the shared-secret store -/

/-- `string | symbol`: the per-instance `#unicast = Symbol("unicast")`
default (line 28) is a symbol, never equal to a string property key. -/
inductive PeerId where
  | unicast : PeerId
  | named : String → PeerId
  deriving DecidableEq

/-- The `#sharedSecrets` object (line 26) is a plain JavaScript object
`{}` used as a map.  `entries` are its own properties; `proto` is its
`[[Prototype]]`: `none` while it is still `Object.prototype`, and `some k`
once an assignment to the string key `"__proto__"` has fired the inherited
`Object.prototype` setter and replaced the prototype with the `CryptoKey`
`k`. -/
structure SecretStore where
  entries : List (PeerId × SymKey)
  proto : Option SymKey
  deriving DecidableEq

/-- The `{}` initialiser of `#sharedSecrets` (line 26): no own entries and
the original `Object.prototype`. -/
def emptySecrets : SecretStore := { entries := [], proto := none }

/-- Own-property lookup among the store's entries. -/
def lookupEntry : List (PeerId × SymKey) → PeerId → Option SymKey
  | [], _ => none
  | (j, k) :: rest, i => if i = j then some k else lookupEntry rest i

/-- The established secret for a peer: the store's own entry, if any
(the spec's "a peer identifier with no entry means no secret
established"). -/
def getSecret (store : SecretStore) (id : PeerId) : Option SymKey :=
  lookupEntry store.entries id

/-- The string keys at which a plain object reads a truthy inherited
member from `Object.prototype` (data and function properties; the
`__proto__` accessor is handled separately). -/
def objectPrototypeMembers : List String :=
  ["constructor", "hasOwnProperty", "isPrototypeOf", "propertyIsEnumerable",
   "toLocaleString", "toString", "valueOf", "__defineGetter__",
   "__defineSetter__", "__lookupGetter__", "__lookupSetter__"]

/-- The brand-checked accessor names of `CryptoKey.prototype`; reading one
through a receiver that is not a `CryptoKey` throws a `TypeError`. -/
def cryptoKeyAccessorNames : List String :=
  ["algorithm", "extractable", "type", "usages"]

/-- The value produced by evaluating `this.#sharedSecrets[identifier]`. -/
inductive PropValue where
  | key : SymKey → PropValue
  | junk : PropValue
  | undefined : PropValue
  | thrown : PropValue
  deriving DecidableEq

/-- The property read `this.#sharedSecrets[identifier]` with full
prototype-chain semantics: an own entry yields its `CryptoKey`; a symbol
key with no own entry finds nothing anywhere on the chain; the string
`"__proto__"` reads the accessor, returning the current prototype — the
replaced `CryptoKey` if one was installed, otherwise the truthy
`Object.prototype` object; other strings find the truthy inherited
`Object.prototype` members (`"constructor"`, `"toString"`, ...); with a
replaced prototype the `CryptoKey.prototype` accessor names throw their
brand-check `TypeError`; everything else is `undefined`. -/
def readSecret (store : SecretStore) (id : PeerId) : PropValue :=
  match lookupEntry store.entries id with
  | some k => .key k
  | none =>
    match id with
    | .unicast => .undefined
    | .named s =>
      if s = "__proto__" then
        match store.proto with
        | some k => .key k
        | none => .junk
      else if s ∈ objectPrototypeMembers then .junk
      else
        match store.proto with
        | some _ => if s ∈ cryptoKeyAccessorNames then .thrown else .undefined
        | none => .undefined

/-- Own-property insert: overwrite an existing entry, otherwise append. -/
def insertEntry (entries : List (PeerId × SymKey)) (i : PeerId) (k : SymKey) :
    List (PeerId × SymKey) :=
  match entries with
  | [] => [(i, k)]
  | (j, k0) :: rest =>
    if i = j then (j, k) :: rest else (j, k0) :: insertEntry rest i k

/-- The property write `this.#sharedSecrets[identifier] = key` (line 53):
for the string key `"__proto__"` the assignment finds the inherited
`Object.prototype` accessor and invokes its setter — the store's prototype
becomes the assigned `CryptoKey` and no own entry is created; every other
key becomes (or overwrites) an own entry. -/
def setSecret (store : SecretStore) (i : PeerId) (k : SymKey) : SecretStore :=
  match i with
  | .named s =>
    if s = "__proto__" then { store with proto := some k }
    else { store with entries := insertEntry store.entries i k }
  | .unicast => { store with entries := insertEntry store.entries i k }

/-! ## Instance state and constructor (lines 15-33) -/

/-- The private fields of one `E2EE` instance. -/
structure E2EEState where
  deps : Deps
  params : Params
  keyPair : Option KeyPair
  sharedSecrets : SecretStore
  deriving DecidableEq

/-- `new E2EE(options?)` (lines 30-33): field initialisers, then
`Object.assign` of the optional partial `deps` and `params`. -/
def mkE2EE (options : Option OptionsInit) : E2EEState :=
  { deps := assignDeps defaultDeps (options.bind fun o => o.deps)
    params := assignParams defaultParams (options.bind fun o => o.params)
    keyPair := none
    sharedSecrets := emptySecrets }

/-! ## Key texts and JWK import/export (lines 126-154) -/

/-- The JSON text of an exported public key (`#marshalKey`, lines 126-130);
the JWK record is carried as parsed data, `JSON.stringify`/`JSON.parse`
being modelled as faithful transport. -/
structure PubKeyText where
  jwk : PubKey
  deriving DecidableEq

/-- The JSON text of an exported private key, including its `key_ops`
metadata. -/
structure PrivKeyText where
  jwk : PrivKey
  deriving DecidableEq

/-- `#unmarshalPublicKey` (lines 132-142): `importKey("jwk", ..., {name:
"ECDH", namedCurve}, true, [])`; the provider rejects a JWK whose curve
differs from the requested one. -/
def unmarshalPublicKey (t : PubKeyText) (curve : String) : Except JsError PubKey :=
  if t.jwk.curve = curve then .ok t.jwk else .error (.cryptoError 0)

/-- `#unmarshalPrivateKey` (lines 144-154): as for the public key, but the
key is imported extractable with the usages recorded in its `key_ops`. -/
def unmarshalPrivateKey (t : PrivKeyText) (curve : String) : Except JsError PrivKey :=
  if t.jwk.curve = curve then
    .ok { curve := t.jwk.curve, seed := t.jwk.seed, extractable := true,
          usages := t.jwk.usages }
  else .error (.cryptoError 0)

/-! ## Ciphertext envelope (lines 156-170) -/

/-- The parsed `{buffer, counter}` JSON envelope: two JavaScript strings,
each a list of UTF-16 code units. -/
structure Envelope where
  buffer : List Nat
  counter : List Nat
  deriving DecidableEq

/-- `String.fromCharCode(...bytes)`: each argument is taken modulo 2^16 to
form one code unit. -/
def fromCharCode (bytes : List Nat) : List Nat :=
  bytes.map fun b => b % 65536

/-- `new Uint8Array([...s].map(c => c.charCodeAt(0)))`: each code unit is
stored into a byte, i.e. taken modulo 2^8. -/
def toUint8Array (codeUnits : List Nat) : List Nat :=
  codeUnits.map fun c => c % 256

/-- `#marshalCiphertext` (lines 156-162). -/
def marshalCiphertext (buffer counter : List Nat) : Envelope :=
  { buffer := fromCharCode buffer, counter := fromCharCode counter }

/-- `#unmarshalCiphertext` (lines 164-170). -/
def unmarshalCiphertext (e : Envelope) : List Nat × List Nat :=
  (toUint8Array e.buffer, toUint8Array e.counter)

/-! ## The public operations (lines 35-124) -/

/-- `generateKeyPair({extractable = false, additionalUsages = []})`
(lines 35-43).  `gen` is the outcome of the awaited
`crypto.subtle.generateKey` call: a fresh key-material seed, or a provider
rejection code. -/
def generateKeyPair (st : E2EEState) (extractable : Bool)
    (additionalUsages : List String) (gen : Except Nat Nat) :
    Except JsError Unit × E2EEState :=
  match st.keyPair with
  | some _ => (.error (.jsError "Key pair already exists"), st)
  | none =>
    match gen with
    | .error code => (.error (.cryptoError code), st)
    | .ok seed =>
      let kp : KeyPair :=
        { privateKey :=
            { curve := st.params.namedCurve, seed := seed,
              extractable := extractable,
              usages := "deriveKey" :: additionalUsages }
          publicKey := { curve := st.params.namedCurve, seed := seed } }
      (.ok (), { st with keyPair := some kp })

/-- `exportPublicKey()` (lines 45-49). -/
def exportPublicKey (st : E2EEState) : Except JsError PubKeyText × E2EEState :=
  match st.keyPair with
  | none => (.error (.jsError "Key pair not generated"), st)
  | some kp => (.ok ⟨kp.publicKey⟩, st)

/-- `setRemotePublicKey(remotePublicKey, identifier = this.#unicast)`
(lines 51-60).  The remote key text is imported first; then
`this.#keyPair!.privateKey` is read, which on a `null` key pair throws a
`TypeError` (the source has no explicit presence check here); then the
awaited `deriveKey` either rejects (`deriveFail = some code`) or produces
the ideal ECDH-derived AES key, which is stored under `identifier`. -/
def setRemotePublicKey (st : E2EEState) (remotePublicKey : PubKeyText)
    (identifier : PeerId) (deriveFail : Option Nat) :
    Except JsError Unit × E2EEState :=
  match unmarshalPublicKey remotePublicKey st.params.namedCurve with
  | .error e => (.error e, st)
  | .ok unmarshalled =>
    match st.keyPair with
    | none => (.error (.typeError "Cannot read properties of null"), st)
    | some kp =>
      match deriveFail with
      | some code => (.error (.cryptoError code), st)
      | none =>
        (.ok (),
          { st with sharedSecrets :=
              (setSecret st.sharedSecrets identifier
                (deriveKey kp.privateKey unmarshalled st.params.keyLength)) })

/-- `encrypt(plaintext, identifier = this.#unicast)` (lines 62-76).
`rand` is the byte string written by `crypto.getRandomValues` into the
fresh `Uint8Array(16)` of `#generateIv` (lines 180-182).  The precondition
is the truthiness check `if (!this.#sharedSecrets[identifier]) throw`: an
`undefined` read throws the `StateError`, but a truthy inherited non-key
value passes the check and `crypto.subtle.encrypt` then rejects with a
`TypeError` because its key argument is not a `CryptoKey`; a read that
itself throws (brand-checked accessor) propagates that `TypeError`. -/
def encrypt (st : E2EEState) (plaintext : List Nat) (identifier : PeerId)
    (rand : List Nat) : Except JsError Envelope × E2EEState :=
  match readSecret st.sharedSecrets identifier with
  | .thrown => (.error (.typeError "Illegal invocation"), st)
  | .undefined => (.error (.jsError "Shared secret not set"), st)
  | .junk => (.error (.typeError "provided value is not of type CryptoKey"), st)
  | .key key =>
    (.ok (marshalCiphertext
        (ctrCrypt key rand st.params.counterLength (utf8Encode plaintext))
        rand),
      st)

/-- `decrypt(ciphertext, identifier = this.#unicast)` (lines 78-92); the
same truthiness precondition as `encrypt`, then the inverse CTR pass. -/
def decrypt (st : E2EEState) (ciphertext : Envelope) (identifier : PeerId) :
    Except JsError (List Nat) × E2EEState :=
  match readSecret st.sharedSecrets identifier with
  | .thrown => (.error (.typeError "Illegal invocation"), st)
  | .undefined => (.error (.jsError "Shared secret not set"), st)
  | .junk => (.error (.typeError "provided value is not of type CryptoKey"), st)
  | .key key =>
    (.ok (utf8Decode
        (ctrCrypt key (unmarshalCiphertext ciphertext).2
          st.params.counterLength (unmarshalCiphertext ciphertext).1)),
      st)

/-- The `Marshalled` record (line 8) returned by `marshal()`. -/
structure Marshalled where
  keyPair : Option KeyPair
  params : Params
  deriving DecidableEq

/-- `marshal()` (lines 94-99). -/
def marshal (st : E2EEState) : Marshalled × E2EEState :=
  ({ keyPair := st.keyPair, params := st.params }, st)

/-- `#restoreKeyPairObject` (lines 122-124). -/
def restoreKeyPairObject (st : E2EEState) (keyPair : Option KeyPair) : E2EEState :=
  { st with keyPair := keyPair }

/-- A full `Params` value passed where the constructor accepts a partial
one, as `unmarshal` does. -/
def paramsToInit (p : Params) : ParamsInit :=
  { counterLength := some p.counterLength, namedCurve := some p.namedCurve,
    keyLength := some p.keyLength }

/-- `E2EE.unmarshal({marshalled: {keyPair, params}, deps})` (lines 101-105):
`new E2EE({params, deps})` followed by `#restoreKeyPairObject(keyPair)`. -/
def unmarshal (marshalled : Marshalled) (deps : Option DepsInit) : E2EEState :=
  restoreKeyPairObject
    (mkE2EE (some { deps := deps, params := some (paramsToInit marshalled.params) }))
    marshalled.keyPair

/-- `exportPrivateKey()` (lines 107-112). -/
def exportPrivateKey (st : E2EEState) : Except JsError PrivKeyText × E2EEState :=
  match st.keyPair with
  | none => (.error (.jsError "Key pair not generated"), st)
  | some kp =>
    if kp.privateKey.extractable then (.ok ⟨kp.privateKey⟩, st)
    else (.error (.jsError "Private key is not extractable"), st)

/-- `importKeyPair({privateKey, publicKey})` (lines 114-120). -/
def importKeyPair (st : E2EEState) (privateKey : PrivKeyText)
    (publicKey : PubKeyText) : Except JsError Unit × E2EEState :=
  match st.keyPair with
  | some _ => (.error (.jsError "Key pair already exists"), st)
  | none =>
    match unmarshalPrivateKey privateKey st.params.namedCurve with
    | .error e => (.error e, st)
    | .ok priv =>
      match unmarshalPublicKey publicKey st.params.namedCurve with
      | .error e => (.error e, st)
      | .ok pub =>
        (.ok (), { st with keyPair := some { privateKey := priv, publicKey := pub } })

/-! ## Streaming (modelled from the spec) -/

/-- Modelled from the spec: `encryptStream(peerIdentifier = default)` is
declared by the repository's documentation and exercised by its tests, but
its body is not among the provided source files.  Per spec section 4.4 it
checks the shared secret synchronously at construction time — failing with
`StateError` before any chunk is processed — and otherwise returns a
per-chunk transform applying the section 4.3 encryption (random counter per
chunk, counter-mode keystream, textual envelope) to each binary chunk. -/
def encryptStream (st : E2EEState) (identifier : PeerId) :
    Except JsError (List Nat → List Nat → Envelope) :=
  match getSecret st.sharedSecrets identifier with
  | none => .error (.jsError "Shared secret not set")
  | some key =>
    .ok fun chunk rand =>
      marshalCiphertext (ctrCrypt key rand st.params.counterLength chunk) rand

/-- Modelled from the spec: `decryptStream(peerIdentifier = default)`, the
dual of `encryptStream` — same synchronous precondition check, and a
per-chunk transform recovering the binary chunk of each envelope. -/
def decryptStream (st : E2EEState) (identifier : PeerId) :
    Except JsError (Envelope → List Nat) :=
  match getSecret st.sharedSecrets identifier with
  | none => .error (.jsError "Shared secret not set")
  | some key =>
    .ok fun e =>
      ctrCrypt key (unmarshalCiphertext e).2 st.params.counterLength
        (unmarshalCiphertext e).1

/-! ## The public operations as one step relation -/

/-- The result value of a public operation. -/
inductive OpResult where
  | unit : OpResult
  | pubText : PubKeyText → OpResult
  | privText : PrivKeyText → OpResult
  | envelope : Envelope → OpResult
  | text : List Nat → OpResult
  | snapshot : Marshalled → OpResult
  deriving DecidableEq

/-- One invocation of a public method of `src/e2ee.ts`, together with the
oracle outcomes of its awaited provider calls. -/
inductive Op where
  | generateKeyPair (extractable : Bool) (additionalUsages : List String)
      (gen : Except Nat Nat)
  | exportPublicKey
  | setRemotePublicKey (remotePublicKey : PubKeyText) (identifier : PeerId)
      (deriveFail : Option Nat)
  | encrypt (plaintext : List Nat) (identifier : PeerId) (rand : List Nat)
  | decrypt (ciphertext : Envelope) (identifier : PeerId)
  | marshal
  | exportPrivateKey
  | importKeyPair (privateKey : PrivKeyText) (publicKey : PubKeyText)

/-- Run one public operation on an instance. -/
def runOp (st : E2EEState) : Op → Except JsError OpResult × E2EEState
  | .generateKeyPair e u g =>
    ((generateKeyPair st e u g).1.map fun _ => .unit, (generateKeyPair st e u g).2)
  | .exportPublicKey =>
    ((exportPublicKey st).1.map .pubText, (exportPublicKey st).2)
  | .setRemotePublicKey r i d =>
    ((setRemotePublicKey st r i d).1.map fun _ => .unit, (setRemotePublicKey st r i d).2)
  | .encrypt p i rand =>
    ((encrypt st p i rand).1.map .envelope, (encrypt st p i rand).2)
  | .decrypt c i =>
    ((decrypt st c i).1.map .text, (decrypt st c i).2)
  | .marshal => (.ok (.snapshot (marshal st).1), (marshal st).2)
  | .exportPrivateKey =>
    ((exportPrivateKey st).1.map .privText, (exportPrivateKey st).2)
  | .importKeyPair priv pub =>
    ((importKeyPair st priv pub).1.map fun _ => .unit, (importKeyPair st priv pub).2)

/-! ## A complete protocol run (the single-party flow of `src/test.js`) -/

/-- The round-trip scenario of the spec's first testable property, following
`src/test.js` lines 52-64: two identities with the same parameters generate
key pairs (with provider seeds `sa`, `sb`), exchange exported public keys,
derive shared secrets, then identity `b` encrypts plaintext `m` (with
`rand` as the random counter bytes) and identity `a` decrypts the envelope.
Any intermediate failure is propagated. -/
def roundTripScenario (p : Params) (sa sb : Nat) (m rand : List Nat) :
    Except JsError (List Nat) :=
  let a0 := mkE2EE (some { deps := none, params := some (paramsToInit p) })
  let b0 := mkE2EE (some { deps := none, params := some (paramsToInit p) })
  match generateKeyPair a0 false [] (.ok sa) with
  | (.error e, _) => .error e
  | (.ok _, a1) =>
    match generateKeyPair b0 false [] (.ok sb) with
    | (.error e, _) => .error e
    | (.ok _, b1) =>
      match exportPublicKey a1 with
      | (.error e, _) => .error e
      | (.ok pkA, a2) =>
        match exportPublicKey b1 with
        | (.error e, _) => .error e
        | (.ok pkB, b2) =>
          match setRemotePublicKey a2 pkB PeerId.unicast none with
          | (.error e, _) => .error e
          | (.ok _, a3) =>
            match setRemotePublicKey b2 pkA PeerId.unicast none with
            | (.error e, _) => .error e
            | (.ok _, b3) =>
              match encrypt b3 m PeerId.unicast rand with
              | (.error e, _) => .error e
              | (.ok env, _) => (decrypt a3 env PeerId.unicast).1

/-- The valid configuration space of `Params` (`src/e2ee.ts` lines 2-6). -/
def ValidParams (p : Params) : Prop :=
  (p.counterLength = 64 ∨ p.counterLength = 128) ∧
  (p.namedCurve = "P-256" ∨ p.namedCurve = "P-384" ∨ p.namedCurve = "P-521") ∧
  (p.keyLength = 128 ∨ p.keyLength = 192 ∨ p.keyLength = 256)

instance (p : Params) : Decidable (ValidParams p) := by
  unfold ValidParams
  infer_instance

/-! ## Concrete sample values used by the witnesses -/

/-- A sample key pair as `generateKeyPair` would store it. -/
def sampleKeyPair : KeyPair :=
  { privateKey :=
      { curve := "P-256", seed := 0, extractable := false, usages := ["deriveKey"] }
    publicKey := { curve := "P-256", seed := 0 } }

/-- A sample derived shared secret. -/
def sampleSecret : SymKey := { length := 256, a := 0, b := 1 }

/-- A state holding a key pair but no shared secrets. -/
def sampleState : E2EEState :=
  { deps := defaultDeps, params := defaultParams, keyPair := some sampleKeyPair,
    sharedSecrets := emptySecrets }

/-- A state holding a key pair and a unicast shared secret. -/
def sampleStateWithSecret : E2EEState :=
  { deps := defaultDeps, params := defaultParams, keyPair := some sampleKeyPair,
    sharedSecrets := ⟨[(PeerId.unicast, sampleSecret)], none⟩ }

/-- A sample exported private-key text. -/
def samplePrivText : PrivKeyText :=
  ⟨{ curve := "P-256", seed := 0, extractable := true, usages := ["deriveKey"] }⟩

/-- A sample exported public-key text on the default curve. -/
def samplePubText : PubKeyText := ⟨{ curve := "P-256", seed := 0 }⟩

/-- An identity of the C8 counterexample: it shares the secret derived from
the ECDH pair of seeds 0 and 1 with the peer it calls `"B"`. -/
def c8Sender : E2EEState :=
  { deps := defaultDeps, params := defaultParams, keyPair := some sampleKeyPair,
    sharedSecrets := ⟨[(PeerId.named "B", ⟨256, 0, 1⟩)], none⟩ }

/-- The other identity of the C8 counterexample: it shares the distinct
secret derived from the ECDH pair of seeds 2 and 3 with the peer it calls
`"A"`. -/
def c8Wrong : E2EEState :=
  { deps := defaultDeps, params := defaultParams, keyPair := some sampleKeyPair,
    sharedSecrets := ⟨[(PeerId.named "A", ⟨256, 2, 3⟩)], none⟩ }

/-- Sixteen concrete random counter bytes. -/
def sampleRand : List Nat := List.replicate 16 7

/-! ## Lemmas about the shared-secret store -/

theorem lookupEntry_insertEntry_same (entries : List (PeerId × SymKey))
    (i : PeerId) (k : SymKey) :
    lookupEntry (insertEntry entries i k) i = some k := by
  induction entries with
  | nil => simp [insertEntry, lookupEntry]
  | cons hd tl ih =>
    obtain ⟨j, k0⟩ := hd
    by_cases h : i = j
    · simp [insertEntry, lookupEntry, h]
    · simp [insertEntry, lookupEntry, h, ih]

theorem lookupEntry_insertEntry_ne (entries : List (PeerId × SymKey))
    (i j : PeerId) (k : SymKey) (h : i ≠ j) :
    lookupEntry (insertEntry entries j k) i = lookupEntry entries i := by
  induction entries with
  | nil => simp [insertEntry, lookupEntry, h]
  | cons hd tl ih =>
    obtain ⟨j0, k0⟩ := hd
    by_cases hj : j = j0
    · subst hj
      simp [insertEntry, lookupEntry, h]
    · by_cases hi : i = j0 <;> simp [insertEntry, lookupEntry, hj, hi, ih]

theorem getSecret_setSecret_ne (store : SecretStore) (i j : PeerId)
    (k : SymKey) (h : i ≠ j) :
    getSecret (setSecret store j k) i = getSecret store i := by
  cases j with
  | unicast => simp [setSecret, getSecret, lookupEntry_insertEntry_ne _ _ _ _ h]
  | named s =>
    by_cases hs : s = "__proto__"
    · simp [setSecret, getSecret, hs]
    · simp [setSecret, getSecret, hs, lookupEntry_insertEntry_ne _ _ _ _ h]

theorem getSecret_setSecret_same_of_ne_proto (store : SecretStore) (i : PeerId)
    (k : SymKey) (h : i ≠ PeerId.named "__proto__") :
    getSecret (setSecret store i k) i = some k := by
  cases i with
  | unicast => simp [setSecret, getSecret, lookupEntry_insertEntry_same]
  | named s =>
    have hs : s ≠ "__proto__" := by
      intro hc
      exact h (by rw [hc])
    simp [setSecret, getSecret, hs, lookupEntry_insertEntry_same]

theorem readSecret_of_getSecret (store : SecretStore) (id : PeerId) (k : SymKey)
    (h : getSecret store id = some k) : readSecret store id = .key k := by
  simp only [readSecret, getSecret] at h ⊢
  rw [h]

/-! ## Lemmas about the ideal CTR cipher -/

theorem ksByte_lt (key : SymKey) (counter : List Nat) (cl i : Nat) :
    ksByte key counter cl i < 256 :=
  Nat.mod_lt _ (by omega)

theorem ctrStream_length (key : SymKey) (counter : List Nat) (cl : Nat) :
    ∀ (i : Nat) (data : List Nat),
      (ctrStream key counter cl i data).length = data.length := by
  intro i data
  induction data generalizing i with
  | nil => simp [ctrStream]
  | cons b bs ih => simp [ctrStream, ih]

theorem ctrStream_ctrStream (key : SymKey) (counter : List Nat) (cl : Nat) :
    ∀ (i : Nat) (data : List Nat),
      ctrStream key counter cl i (ctrStream key counter cl i data) = data := by
  intro i data
  induction data generalizing i with
  | nil => simp [ctrStream]
  | cons b bs ih =>
    simp only [ctrStream, List.cons.injEq]
    refine ⟨?_, ih (i + 1)⟩
    rw [Nat.xor_assoc, Nat.xor_self, Nat.xor_zero]

theorem ctrCrypt_ctrCrypt (key : SymKey) (counter : List Nat) (cl : Nat)
    (data : List Nat) :
    ctrCrypt key counter cl (ctrCrypt key counter cl data) = data :=
  ctrStream_ctrStream key counter cl 0 data

theorem ctrStream_lt_256 (key : SymKey) (counter : List Nat) (cl : Nat) :
    ∀ (i : Nat) (data : List Nat), (∀ b ∈ data, b < 256) →
      ∀ b ∈ ctrStream key counter cl i data, b < 256 := by
  intro i data
  induction data generalizing i with
  | nil => simp [ctrStream]
  | cons b bs ih =>
    intro hd c hc
    simp only [ctrStream, List.mem_cons] at hc
    rcases hc with hc | hc
    · subst hc
      have h1 : b < 2 ^ 8 := by
        have := hd b (by simp)
        omega
      have h2 : ksByte key counter cl i < 2 ^ 8 := by
        have := ksByte_lt key counter cl i
        omega
      have := Nat.xor_lt_two_pow h1 h2
      omega
    · exact ih (i + 1) (fun x hx => hd x (by simp [hx])) c hc

theorem ctrStream_getElem? (key : SymKey) (counter : List Nat) (cl : Nat) :
    ∀ (i j : Nat) (data : List Nat),
      (ctrStream key counter cl i data)[j]? =
        data[j]?.map fun b => b ^^^ ksByte key counter cl (i + j) := by
  intro i j data
  induction data generalizing i j with
  | nil => simp [ctrStream]
  | cons b bs ih =>
    cases j with
    | zero => simp [ctrStream]
    | succ j' =>
      simp only [ctrStream, List.getElem?_cons_succ, ih (i + 1) j']
      have : i + 1 + j' = i + (j' + 1) := by omega
      rw [this]

/-! ## Lemmas about the byte-string transport -/

theorem toUint8Array_fromCharCode (l : List Nat) (h : ∀ b ∈ l, b < 256) :
    toUint8Array (fromCharCode l) = l := by
  induction l with
  | nil => simp [toUint8Array, fromCharCode]
  | cons b bs ih =>
    have hb : b < 256 := h b (by simp)
    simp only [toUint8Array, fromCharCode, List.map_cons, List.cons.injEq] at *
    constructor
    · have : b % 65536 = b := Nat.mod_eq_of_lt (by omega)
      rw [this, Nat.mod_eq_of_lt hb]
    · exact ih fun x hx => h x (List.mem_cons_of_mem _ hx)

theorem fromCharCode_of_lt (l : List Nat) (h : ∀ b ∈ l, b < 256) :
    fromCharCode l = l := by
  induction l with
  | nil => simp [fromCharCode]
  | cons b bs ih =>
    have hb : b < 256 := h b (by simp)
    simp only [fromCharCode, List.map_cons, List.cons.injEq] at *
    exact ⟨Nat.mod_eq_of_lt (by omega), ih fun x hx => h x (List.mem_cons_of_mem _ hx)⟩

/-! ## Lemmas about the UTF-8 codec -/

theorem decodeOne_ascii (b : Nat) (bs : List Nat) (h : b < 128) :
    decodeOne (b :: bs) = (b, bs) := by
  simp [decodeOne, h]

theorem decodeOne_two (b b2 : Nat) (bs : List Nat) (hb : 194 ≤ b) (hb' : b < 224)
    (h2 : 128 ≤ b2) (h2' : b2 ≤ 191) :
    decodeOne (b :: b2 :: bs) = ((b - 192) * 64 + (b2 - 128), bs) := by
  simp only [decodeOne]
  rw [if_neg (by omega), if_neg (by omega), if_pos (by omega), if_pos ⟨h2, h2'⟩]

theorem decodeOne_three (b b2 b3 : Nat) (bs : List Nat) (hb : 224 ≤ b) (hb' : b < 240)
    (h2 : 128 ≤ b2) (h2' : b2 ≤ 191) (hE0 : b = 224 → 160 ≤ b2)
    (hED : b = 237 → b2 ≤ 159) (h3 : 128 ≤ b3) (h3' : b3 ≤ 191) :
    decodeOne (b :: b2 :: b3 :: bs) =
      ((b - 224) * 4096 + (b2 - 128) * 64 + (b3 - 128), bs) := by
  simp only [decodeOne]
  rw [if_neg (by omega), if_neg (by omega), if_neg (by omega), if_pos (by omega),
    if_pos ⟨h2, h2', hE0, hED⟩, if_pos ⟨h3, h3'⟩]

theorem decodeOne_four (b b2 b3 b4 : Nat) (bs : List Nat) (hb : 240 ≤ b) (hb' : b < 245)
    (h2 : 128 ≤ b2) (h2' : b2 ≤ 191) (hF0 : b = 240 → 144 ≤ b2)
    (hF4 : b = 244 → b2 ≤ 143) (h3 : 128 ≤ b3) (h3' : b3 ≤ 191)
    (h4 : 128 ≤ b4) (h4' : b4 ≤ 191) :
    decodeOne (b :: b2 :: b3 :: b4 :: bs) =
      ((b - 240) * 262144 + (b2 - 128) * 4096 + (b3 - 128) * 64 + (b4 - 128), bs) := by
  simp only [decodeOne]
  rw [if_neg (by omega), if_neg (by omega), if_neg (by omega), if_neg (by omega),
    if_pos (by omega), if_pos ⟨h2, h2', hF0, hF4⟩, if_pos ⟨h3, h3'⟩, if_pos ⟨h4, h4'⟩]

theorem decodeOne_shrinks (b : Nat) (bs : List Nat) :
    (decodeOne (b :: bs)).2.length ≤ bs.length := by
  simp only [decodeOne]
  repeat' split
  all_goals simp [List.length_cons]
  all_goals omega

theorem utf8DecodeAux_nil (f : Nat) : utf8DecodeAux f [] = [] := by
  cases f <;> rfl

theorem utf8DecodeAux_congr :
    ∀ (f1 f2 : Nat) (l : List Nat), l.length ≤ f1 → l.length ≤ f2 →
      utf8DecodeAux f1 l = utf8DecodeAux f2 l := by
  intro f1
  induction f1 with
  | zero =>
    intro f2 l h1 _
    have : l = [] := by
      cases l with
      | nil => rfl
      | cons b bs => simp at h1
    subst this
    rw [utf8DecodeAux_nil, utf8DecodeAux_nil]
  | succ f ih =>
    intro f2 l h1 h2
    cases l with
    | nil => rw [utf8DecodeAux_nil, utf8DecodeAux_nil]
    | cons b bs =>
      cases f2 with
      | zero => simp at h2
      | succ f2' =>
        simp only [utf8DecodeAux]
        have hs := decodeOne_shrinks b bs
        congr 1
        exact ih f2' (decodeOne (b :: bs)).2
          (by simp at h1; omega) (by simp at h2; omega)

theorem utf8Decode_cons (b : Nat) (bs : List Nat) :
    utf8Decode (b :: bs) =
      (decodeOne (b :: bs)).1 :: utf8Decode (decodeOne (b :: bs)).2 := by
  unfold utf8Decode
  simp only [List.length_cons, utf8DecodeAux]
  congr 1
  exact utf8DecodeAux_congr bs.length (decodeOne (b :: bs)).2.length
    (decodeOne (b :: bs)).2 (decodeOne_shrinks b bs) le_rfl

theorem utf8EncodeChar_ne_nil (c : Nat) : utf8EncodeChar c ≠ [] := by
  unfold utf8EncodeChar
  repeat' split
  all_goals simp

theorem decodeOne_encodeChar (c : Nat) (h : ValidScalar c) (rest : List Nat) :
    decodeOne (utf8EncodeChar c ++ rest) = (c, rest) := by
  obtain ⟨h1, h2⟩ := h
  by_cases hc1 : c < 128
  · simp only [utf8EncodeChar, if_pos hc1, List.cons_append, List.nil_append]
    exact decodeOne_ascii c rest hc1
  · by_cases hc2 : c < 2048
    · simp only [utf8EncodeChar, if_neg hc1, if_pos hc2, List.cons_append, List.nil_append]
      rw [decodeOne_two _ _ _ (by omega) (by omega) (by omega) (by omega)]
      simp only [Prod.mk.injEq, and_true]
      omega
    · by_cases hc3 : c < 65536
      · simp only [utf8EncodeChar, if_neg hc1, if_neg hc2, if_pos hc3, List.cons_append,
          List.nil_append]
        rw [decodeOne_three _ _ _ _ (by omega) (by omega) (by omega) (by omega)
          (by intro he; omega) (by intro he; omega) (by omega) (by omega)]
        simp only [Prod.mk.injEq, and_true]
        omega
      · simp only [utf8EncodeChar, if_neg hc1, if_neg hc2, if_neg hc3, List.cons_append,
          List.nil_append]
        rw [decodeOne_four _ _ _ _ _ (by omega) (by omega) (by omega) (by omega)
          (by intro he; omega) (by intro he; omega) (by omega) (by omega)
          (by omega) (by omega)]
        simp only [Prod.mk.injEq, and_true]
        omega

theorem utf8Decode_utf8Encode :
    ∀ (cs : List Nat), (∀ c ∈ cs, ValidScalar c) →
      utf8Decode (utf8Encode cs) = cs := by
  intro cs
  induction cs with
  | nil => intro _; rfl
  | cons c cs ih =>
    intro h
    have hc : ValidScalar c := h c (by simp)
    show utf8Decode (utf8EncodeChar c ++ utf8Encode cs) = c :: cs
    rcases he : utf8EncodeChar c ++ utf8Encode cs with _ | ⟨b, bs⟩
    · exact absurd (List.append_eq_nil.mp he).1 (utf8EncodeChar_ne_nil c)
    · rw [utf8Decode_cons, ← he, decodeOne_encodeChar c hc]
      show c :: utf8Decode (utf8Encode cs) = c :: cs
      rw [ih fun x hx => h x (List.mem_cons_of_mem _ hx)]

theorem utf8EncodeChar_lt_256 (c : Nat) (h : c < 1114112) :
    ∀ b ∈ utf8EncodeChar c, b < 256 := by
  unfold utf8EncodeChar
  repeat' split
  all_goals intro b hb
  all_goals simp at hb
  all_goals omega

theorem utf8Encode_lt_256 :
    ∀ (cs : List Nat), (∀ c ∈ cs, ValidScalar c) →
      ∀ b ∈ utf8Encode cs, b < 256 := by
  intro cs
  induction cs with
  | nil => simp [utf8Encode]
  | cons c cs ih =>
    intro h b hb
    simp only [utf8Encode, List.mem_append] at hb
    rcases hb with hb | hb
    · exact utf8EncodeChar_lt_256 c (h c (by simp)).1 b hb
    · exact ih (fun x hx => h x (List.mem_cons_of_mem _ hx)) b hb

/-- Each `decodeOne` step either exactly re-encodes to the bytes it
consumed (a valid sequence) or emits the replacement character U+FFFD. -/
theorem decodeOne_spec (b : Nat) (bs : List Nat) :
    utf8EncodeChar (decodeOne (b :: bs)).1 ++ (decodeOne (b :: bs)).2 = b :: bs ∨
      (decodeOne (b :: bs)).1 = 65533 := by
  by_cases hb1 : b < 128
  · left
    rw [decodeOne_ascii b bs hb1]
    simp [utf8EncodeChar, hb1]
  · by_cases hb2 : b < 194
    · right
      simp [decodeOne, hb1, hb2]
    · by_cases hb3 : b < 224
      · rcases bs with _ | ⟨b2, bs2⟩
        · right
          simp [decodeOne, hb1, hb2, hb3]
        · by_cases hc : 128 ≤ b2 ∧ b2 ≤ 191
          · left
            rw [decodeOne_two b b2 bs2 (by omega) hb3 hc.1 hc.2]
            have n1 : ¬((b - 192) * 64 + (b2 - 128) < 128) := by omega
            have n2 : (b - 192) * 64 + (b2 - 128) < 2048 := by omega
            simp only [utf8EncodeChar, if_neg n1, if_pos n2, List.cons_append,
              List.nil_append]
            have e1 : 192 + ((b - 192) * 64 + (b2 - 128)) / 64 = b := by omega
            have e2 : 128 + ((b - 192) * 64 + (b2 - 128)) % 64 = b2 := by omega
            rw [e1, e2]
          · right
            simp only [decodeOne]
            rw [if_neg hb1, if_neg hb2, if_pos hb3, if_neg hc]
      · by_cases hb4 : b < 240
        · rcases bs with _ | ⟨b2, bs2⟩
          · right
            simp only [decodeOne]
            rw [if_neg hb1, if_neg hb2, if_neg hb3, if_pos hb4]
          · by_cases hc : 128 ≤ b2 ∧ b2 ≤ 191 ∧ (b = 224 → 160 ≤ b2) ∧
                (b = 237 → b2 ≤ 159)
            · rcases bs2 with _ | ⟨b3, bs3⟩
              · right
                simp only [decodeOne]
                rw [if_neg hb1, if_neg hb2, if_neg hb3, if_pos hb4, if_pos hc]
              · by_cases hc3 : 128 ≤ b3 ∧ b3 ≤ 191
                · left
                  obtain ⟨k1, k2, k3, k4⟩ := hc
                  rw [decodeOne_three b b2 b3 bs3 (by omega) hb4 k1 k2 k3 k4 hc3.1 hc3.2]
                  have hlo : 2048 ≤ (b - 224) * 4096 + (b2 - 128) * 64 + (b3 - 128) := by
                    by_cases hbe : b = 224
                    · have := k3 hbe
                      omega
                    · omega
                  have n1 : ¬((b - 224) * 4096 + (b2 - 128) * 64 + (b3 - 128) < 128) := by
                    omega
                  have n2 : ¬((b - 224) * 4096 + (b2 - 128) * 64 + (b3 - 128) < 2048) := by
                    omega
                  have n3 : (b - 224) * 4096 + (b2 - 128) * 64 + (b3 - 128) < 65536 := by
                    omega
                  simp only [utf8EncodeChar, if_neg n1, if_neg n2, if_pos n3,
                    List.cons_append, List.nil_append]
                  have e1 : 224 + ((b - 224) * 4096 + (b2 - 128) * 64 + (b3 - 128)) / 4096
                      = b := by omega
                  have e2 : 128 + ((b - 224) * 4096 + (b2 - 128) * 64 + (b3 - 128)) / 64 % 64
                      = b2 := by omega
                  have e3 : 128 + ((b - 224) * 4096 + (b2 - 128) * 64 + (b3 - 128)) % 64
                      = b3 := by omega
                  rw [e1, e2, e3]
                · right
                  simp only [decodeOne]
                  rw [if_neg hb1, if_neg hb2, if_neg hb3, if_pos hb4, if_pos hc, if_neg hc3]
            · right
              simp only [decodeOne]
              rw [if_neg hb1, if_neg hb2, if_neg hb3, if_pos hb4, if_neg hc]
        · by_cases hb5 : b < 245
          · rcases bs with _ | ⟨b2, bs2⟩
            · right
              simp only [decodeOne]
              rw [if_neg hb1, if_neg hb2, if_neg hb3, if_neg hb4, if_pos hb5]
            · by_cases hc : 128 ≤ b2 ∧ b2 ≤ 191 ∧ (b = 240 → 144 ≤ b2) ∧
                  (b = 244 → b2 ≤ 143)
              · rcases bs2 with _ | ⟨b3, bs3⟩
                · right
                  simp only [decodeOne]
                  rw [if_neg hb1, if_neg hb2, if_neg hb3, if_neg hb4, if_pos hb5, if_pos hc]
                · by_cases hc3 : 128 ≤ b3 ∧ b3 ≤ 191
                  · rcases bs3 with _ | ⟨b4, bs4⟩
                    · right
                      simp only [decodeOne]
                      rw [if_neg hb1, if_neg hb2, if_neg hb3, if_neg hb4, if_pos hb5,
                        if_pos hc, if_pos hc3]
                    · by_cases hc4 : 128 ≤ b4 ∧ b4 ≤ 191
                      · left
                        obtain ⟨k1, k2, k3, k4⟩ := hc
                        rw [decodeOne_four b b2 b3 b4 bs4 (by omega) hb5 k1 k2 k3 k4
                          hc3.1 hc3.2 hc4.1 hc4.2]
                        have hlo : 65536 ≤ (b - 240) * 262144 + (b2 - 128) * 4096
                            + (b3 - 128) * 64 + (b4 - 128) := by
                          by_cases hbe : b = 240
                          · have := k3 hbe
                            omega
                          · omega
                        have hhi : (b - 240) * 262144 + (b2 - 128) * 4096
                            + (b3 - 128) * 64 + (b4 - 128) < 1114112 := by
                          by_cases hbe : b = 244
                          · have := k4 hbe
                            omega
                          · omega
                        have n1 : ¬((b - 240) * 262144 + (b2 - 128) * 4096
                            + (b3 - 128) * 64 + (b4 - 128) < 128) := by omega
                        have n2 : ¬((b - 240) * 262144 + (b2 - 128) * 4096
                            + (b3 - 128) * 64 + (b4 - 128) < 2048) := by omega
                        have n3 : ¬((b - 240) * 262144 + (b2 - 128) * 4096
                            + (b3 - 128) * 64 + (b4 - 128) < 65536) := by omega
                        simp only [utf8EncodeChar, if_neg n1, if_neg n2, if_neg n3,
                          List.cons_append, List.nil_append]
                        have e1 : 240 + ((b - 240) * 262144 + (b2 - 128) * 4096
                            + (b3 - 128) * 64 + (b4 - 128)) / 262144 = b := by omega
                        have e2 : 128 + ((b - 240) * 262144 + (b2 - 128) * 4096
                            + (b3 - 128) * 64 + (b4 - 128)) / 4096 % 64 = b2 := by omega
                        have e3 : 128 + ((b - 240) * 262144 + (b2 - 128) * 4096
                            + (b3 - 128) * 64 + (b4 - 128)) / 64 % 64 = b3 := by omega
                        have e4 : 128 + ((b - 240) * 262144 + (b2 - 128) * 4096
                            + (b3 - 128) * 64 + (b4 - 128)) % 64 = b4 := by omega
                        rw [e1, e2, e3, e4]
                      · right
                        simp only [decodeOne]
                        rw [if_neg hb1, if_neg hb2, if_neg hb3, if_neg hb4, if_pos hb5,
                          if_pos hc, if_pos hc3, if_neg hc4]
                  · right
                    simp only [decodeOne]
                    rw [if_neg hb1, if_neg hb2, if_neg hb3, if_neg hb4, if_pos hb5,
                      if_pos hc, if_neg hc3]
              · right
                simp only [decodeOne]
                rw [if_neg hb1, if_neg hb2, if_neg hb3, if_neg hb4, if_pos hb5, if_neg hc]
          · right
            simp only [decodeOne]
            rw [if_neg hb1, if_neg hb2, if_neg hb3, if_neg hb4, if_neg hb5]

/-- A byte string whose decoding contains no replacement character U+FFFD
went through valid decode steps only, so it is exactly the UTF-8 encoding
of its decoding. -/
theorem utf8Encode_of_decode_no_replacement :
    ∀ (n : Nat) (x m : List Nat), x.length ≤ n → utf8Decode x = m → 65533 ∉ m →
      x = utf8Encode m := by
  intro n
  induction n with
  | zero =>
    intro x m h hd hm
    have hx : x = [] := by
      cases x with
      | nil => rfl
      | cons a l => simp at h
    subst hx
    rw [← hd]
    rfl
  | succ n ih =>
    intro x m h hd hm
    rcases x with _ | ⟨b, bs⟩
    · rw [← hd]
      rfl
    · rw [utf8Decode_cons] at hd
      rcases decodeOne_spec b bs with hval | herr
      · subst hd
        have hm1 : 65533 ∉ utf8Decode (decodeOne (b :: bs)).2 := by
          intro hx
          exact hm (List.mem_cons_of_mem _ hx)
        have hr2 := ih (decodeOne (b :: bs)).2 (utf8Decode (decodeOne (b :: bs)).2)
          (by have := decodeOne_shrinks b bs; simp at h; omega) rfl hm1
        calc b :: bs
            = utf8EncodeChar (decodeOne (b :: bs)).1 ++ (decodeOne (b :: bs)).2 :=
              hval.symm
          _ = utf8EncodeChar (decodeOne (b :: bs)).1
              ++ utf8Encode (utf8Decode (decodeOne (b :: bs)).2) := by rw [← hr2]
          _ = utf8Encode ((decodeOne (b :: bs)).1
              :: utf8Decode (decodeOne (b :: bs)).2) := rfl
      · exfalso
        apply hm
        rw [← hd, ← herr]
        exact List.mem_cons_self _ _

/-! ## Lemmas about the public operations -/

theorem runOp_params (st : E2EEState) (op : Op) :
    (runOp st op).2.params = st.params := by
  cases op with
  | generateKeyPair e u g =>
    simp only [runOp, generateKeyPair]
    cases st.keyPair <;> cases g <;> simp
  | exportPublicKey =>
    simp only [runOp, exportPublicKey]
    cases st.keyPair <;> simp
  | setRemotePublicKey r i d =>
    simp only [runOp, setRemotePublicKey]
    cases unmarshalPublicKey r st.params.namedCurve <;> cases st.keyPair <;>
      cases d <;> simp
  | encrypt p i rand =>
    simp only [runOp, encrypt]
    cases readSecret st.sharedSecrets i <;> simp
  | decrypt c i =>
    simp only [runOp, decrypt]
    cases readSecret st.sharedSecrets i <;> simp
  | marshal => rfl
  | exportPrivateKey =>
    simp only [runOp, exportPrivateKey]
    cases st.keyPair with
    | none => simp
    | some kp => by_cases h : kp.privateKey.extractable <;> simp [h]
  | importKeyPair priv pub =>
    simp only [runOp, importKeyPair]
    cases st.keyPair <;> cases unmarshalPrivateKey priv st.params.namedCurve <;>
      cases unmarshalPublicKey pub st.params.namedCurve <;> simp

theorem runOp_keyPair_frozen (st : E2EEState) (op : Op)
    (h : st.keyPair.isSome) : (runOp st op).2.keyPair = st.keyPair := by
  cases op with
  | generateKeyPair e u g =>
    simp only [runOp, generateKeyPair]
    cases hk : st.keyPair with
    | none => rw [hk] at h; simp at h
    | some kp => simp [hk]
  | exportPublicKey =>
    simp only [runOp, exportPublicKey]
    cases hk : st.keyPair <;> simp [hk]
  | setRemotePublicKey r i d =>
    simp only [runOp, setRemotePublicKey]
    cases hu : unmarshalPublicKey r st.params.namedCurve <;>
      cases hk : st.keyPair <;> cases d <;> simp [hu, hk]
  | encrypt p i rand =>
    simp only [runOp, encrypt]
    cases hs : readSecret st.sharedSecrets i <;> simp [hs]
  | decrypt c i =>
    simp only [runOp, decrypt]
    cases hs : readSecret st.sharedSecrets i <;> simp [hs]
  | marshal => rfl
  | exportPrivateKey =>
    simp only [runOp, exportPrivateKey]
    cases hk : st.keyPair with
    | none => simp [hk]
    | some kp => by_cases hx : kp.privateKey.extractable <;> simp [hk, hx]
  | importKeyPair priv pub =>
    simp only [runOp, importKeyPair]
    cases hk : st.keyPair with
    | none => rw [hk] at h; simp at h
    | some kp => simp [hk]

theorem runOp_error_state (st : E2EEState) (op : Op) (e : JsError)
    (h : (runOp st op).1 = .error e) : (runOp st op).2 = st := by
  cases op with
  | generateKeyPair ext u g =>
    simp only [runOp, generateKeyPair] at h ⊢
    cases hk : st.keyPair <;> cases g <;> simp_all [Except.map]
  | exportPublicKey =>
    simp only [runOp, exportPublicKey] at h ⊢
    cases hk : st.keyPair <;> simp_all
  | setRemotePublicKey r i d =>
    simp only [runOp, setRemotePublicKey] at h ⊢
    cases hu : unmarshalPublicKey r st.params.namedCurve <;>
      cases hk : st.keyPair <;> cases d <;> simp_all [Except.map]
  | encrypt p i rand =>
    simp only [runOp, encrypt] at h ⊢
    cases hs : readSecret st.sharedSecrets i <;> simp_all [Except.map]
  | decrypt c i =>
    simp only [runOp, decrypt] at h ⊢
    cases hs : readSecret st.sharedSecrets i <;> simp_all [Except.map]
  | marshal => rfl
  | exportPrivateKey =>
    simp only [runOp, exportPrivateKey] at h ⊢
    cases hk : st.keyPair with
    | none => simp_all
    | some kp => by_cases hx : kp.privateKey.extractable <;> simp_all
  | importKeyPair priv pub =>
    simp only [runOp, importKeyPair] at h ⊢
    cases hk : st.keyPair <;> cases hp : unmarshalPrivateKey priv st.params.namedCurve <;>
      cases hq : unmarshalPublicKey pub st.params.namedCurve <;> simp_all [Except.map]

/-! ## Claim theorems -/

/-- Claim C10: constructing an `E2EE` with no options, or with a partial
`params` object, fills every unspecified field with its default, merged
field-wise — counterLength 64, namedCurve "P-256", keyLength 256, and
crypto = globalThis.crypto — caller-supplied fields override the
corresponding default, and the resulting parameters are fixed at
construction: no public operation modifies them afterwards. -/
theorem C10_constructor_defaults :
    (∀ options : Option OptionsInit,
      (mkE2EE options).params.counterLength
          = ((options.bind fun o => o.params).bind fun p => p.counterLength).getD 64 ∧
      (mkE2EE options).params.namedCurve
          = ((options.bind fun o => o.params).bind fun p => p.namedCurve).getD "P-256" ∧
      (mkE2EE options).params.keyLength
          = ((options.bind fun o => o.params).bind fun p => p.keyLength).getD 256 ∧
      (mkE2EE options).deps.crypto
          = ((options.bind fun o => o.deps).bind fun d => d.crypto).getD
              globalThisCrypto ∧
      (mkE2EE options).keyPair = none ∧
      (mkE2EE options).sharedSecrets = emptySecrets) ∧
    ∀ (st : E2EEState) (op : Op), (runOp st op).2.params = st.params := by
  constructor
  · intro options
    rcases options with _ | ⟨d, p⟩
    · simp [mkE2EE, assignDeps, assignParams, defaultDeps, defaultParams, emptySecrets]
    · rcases d with _ | d <;> rcases p with _ | p <;>
        simp [mkE2EE, assignDeps, assignParams, defaultDeps, defaultParams, emptySecrets]
  · exact runOp_params

/-- Claim C2: `generateKeyPair` and `importKeyPair` fail with the
`StateError` "Key pair already exists" exactly when a key pair is already
present (however it came to be), on success each populates the key pair,
and once a key pair is present no public operation ever changes it — so a
second `generateKeyPair` or `importKeyPair` call always fails. -/
theorem C2_keypair_lifecycle (st : E2EEState) (ext : Bool) (usages : List String)
    (gen : Except Nat Nat) (priv : PrivKeyText) (pub : PubKeyText) :
    ((generateKeyPair st ext usages gen).1
        = .error (.jsError "Key pair already exists") ↔ st.keyPair.isSome) ∧
    ((importKeyPair st priv pub).1
        = .error (.jsError "Key pair already exists") ↔ st.keyPair.isSome) ∧
    ((generateKeyPair st ext usages gen).1 = .ok ()
        → (generateKeyPair st ext usages gen).2.keyPair.isSome) ∧
    ((importKeyPair st priv pub).1 = .ok ()
        → (importKeyPair st priv pub).2.keyPair.isSome) ∧
    (∀ op : Op, st.keyPair.isSome → (runOp st op).2.keyPair = st.keyPair) := by
  refine ⟨?_, ?_, ?_, ?_, fun op h => runOp_keyPair_frozen st op h⟩
  · simp only [generateKeyPair]
    cases hk : st.keyPair <;> cases gen <;> simp
  · simp only [importKeyPair, unmarshalPrivateKey, unmarshalPublicKey]
    cases hk : st.keyPair <;>
      by_cases hp : priv.jwk.curve = st.params.namedCurve <;>
      by_cases hq : pub.jwk.curve = st.params.namedCurve <;> simp [hp, hq]
  · simp only [generateKeyPair]
    cases hk : st.keyPair <;> cases gen <;> simp
  · simp only [importKeyPair]
    cases hk : st.keyPair <;>
      cases hp : unmarshalPrivateKey priv st.params.namedCurve <;>
      cases hq : unmarshalPublicKey pub st.params.namedCurve <;> simp

/-- Witness for C2 at concrete inputs: on a state that already holds a key
pair, a second `generateKeyPair` fails with the `StateError`, and on a
fresh state a successful generation populates the key pair. -/
theorem C2_keypair_lifecycle_witness :
    (generateKeyPair sampleState true [] (.ok 5)).1
        = .error (.jsError "Key pair already exists") ∧
    (generateKeyPair (mkE2EE none) false [] (.ok 5)).2.keyPair.isSome := by
  constructor
  · exact (C2_keypair_lifecycle sampleState true [] (.ok 5) samplePrivText
      samplePubText).1.mpr (by decide)
  · exact (C2_keypair_lifecycle (mkE2EE none) false [] (.ok 5) samplePrivText
      samplePubText).2.2.1 (by decide)

/-- Claim C6: `unmarshal` returns a new identity whose parameters are the
given params, whose key pair is exactly the given handle passed through
opaquely, and whose shared-secret store is empty: no peer identifier has an
established secret. -/
theorem C6_unmarshal (m : Marshalled) (deps : Option DepsInit) :
    (unmarshal m deps).params = m.params ∧
    (unmarshal m deps).keyPair = m.keyPair ∧
    (unmarshal m deps).sharedSecrets = emptySecrets ∧
    ∀ id, getSecret (unmarshal m deps).sharedSecrets id = none := by
  exact ⟨rfl, rfl, rfl, fun id => rfl⟩

/-- Claim C7 is refuted at this input: with a key pair present,
`setRemotePublicKey` addressed to the caller-chosen identifier
`"__proto__"` succeeds, yet stores no secret — the assignment fires the
inherited `Object.prototype` setter, so the store's own entries are
unchanged, its prototype is replaced by the derived key, and no
established secret for the identifier exists afterwards: the documented
side effect is not applied. -/
theorem C7_counterexample :
    (setRemotePublicKey sampleState samplePubText (PeerId.named "__proto__") none).1
        = .ok () ∧
    ((setRemotePublicKey sampleState samplePubText
        (PeerId.named "__proto__") none).2).sharedSecrets.entries
        = sampleState.sharedSecrets.entries ∧
    ((setRemotePublicKey sampleState samplePubText
        (PeerId.named "__proto__") none).2).sharedSecrets.proto
        = some (deriveKey sampleKeyPair.privateKey samplePubText.jwk 256) ∧
    getSecret ((setRemotePublicKey sampleState samplePubText
        (PeerId.named "__proto__") none).2).sharedSecrets (PeerId.named "__proto__")
        = none := by
  decide

/-- Claim C7 (amended): every public operation that fails leaves the
instance state unchanged; a successful `generateKeyPair` or
`importKeyPair` applies exactly its documented side effect, setting the
key pair; and a successful `setRemotePublicKey` stores the derived secret
as an own entry under its identifier, leaving the store's prototype alone
— except for the caller-chosen string `"__proto__"`, where the assignment
fires the inherited prototype setter: no entry is stored, the store's
prototype is replaced by the derived key, and no established secret for
that identifier results. -/
theorem C7_atomicity_amended (st : E2EEState) :
    (∀ (op : Op) (e : JsError), (runOp st op).1 = .error e → (runOp st op).2 = st) ∧
    (∀ ext usages gen, (generateKeyPair st ext usages gen).1 = .ok () →
      ∃ kp, (generateKeyPair st ext usages gen).2 = { st with keyPair := some kp }) ∧
    (∀ priv pub, (importKeyPair st priv pub).1 = .ok () →
      ∃ kp, (importKeyPair st priv pub).2 = { st with keyPair := some kp }) ∧
    (∀ remote id df, (setRemotePublicKey st remote id df).1 = .ok () →
      ∃ k, (setRemotePublicKey st remote id df).2
          = { st with sharedSecrets := setSecret st.sharedSecrets id k } ∧
        (id ≠ PeerId.named "__proto__" →
          (setSecret st.sharedSecrets id k).entries
              = insertEntry st.sharedSecrets.entries id k ∧
          (setSecret st.sharedSecrets id k).proto = st.sharedSecrets.proto ∧
          getSecret (setSecret st.sharedSecrets id k) id = some k) ∧
        (id = PeerId.named "__proto__" →
          (setSecret st.sharedSecrets id k).entries = st.sharedSecrets.entries ∧
          (setSecret st.sharedSecrets id k).proto = some k ∧
          getSecret (setSecret st.sharedSecrets id k) id
              = getSecret st.sharedSecrets id)) := by
  refine ⟨fun op e h => runOp_error_state st op e h, ?_, ?_, ?_⟩
  · intro ext usages gen
    simp only [generateKeyPair]
    cases hk : st.keyPair <;> cases gen <;> simp
  · intro priv pub
    simp only [importKeyPair]
    cases hk : st.keyPair <;>
      cases hp : unmarshalPrivateKey priv st.params.namedCurve <;>
      cases hq : unmarshalPublicKey pub st.params.namedCurve <;> simp
  · intro remote id df hok
    simp only [setRemotePublicKey] at hok ⊢
    cases hu : unmarshalPublicKey remote st.params.namedCurve with
    | error e =>
      rw [hu] at hok
      simp at hok
    | ok pub =>
      rw [hu] at hok
      cases hk : st.keyPair with
      | none =>
        rw [hk] at hok
        simp at hok
      | some kp =>
        rw [hk] at hok
        cases df with
        | some code => simp at hok
        | none =>
          refine ⟨deriveKey kp.privateKey pub st.params.keyLength, rfl, ?_, ?_⟩
          · intro hid
            refine ⟨?_, ?_, getSecret_setSecret_same_of_ne_proto _ _ _ hid⟩
            · cases id with
              | unicast => rfl
              | named nm =>
                have hs : nm ≠ "__proto__" := fun hc => hid (by rw [hc])
                simp [setSecret, hs]
            · cases id with
              | unicast => rfl
              | named nm =>
                have hs : nm ≠ "__proto__" := fun hc => hid (by rw [hc])
                simp [setSecret, hs]
          · intro hid
            subst hid
            refine ⟨?_, ?_, ?_⟩ <;> simp [setSecret, getSecret]

/-- Witness for the amended C7 at concrete inputs: a failing
`exportPublicKey` leaves a fresh instance unchanged, and a successful
`setRemotePublicKey` at the unicast identifier stores exactly the derived
secret as an own entry. -/
theorem C7_atomicity_amended_witness :
    (runOp (mkE2EE none) Op.exportPublicKey).2 = mkE2EE none ∧
    ∃ k, (setRemotePublicKey sampleState samplePubText PeerId.unicast none).2
        = { sampleState with
              sharedSecrets := setSecret sampleState.sharedSecrets PeerId.unicast k } ∧
          getSecret (setSecret sampleState.sharedSecrets PeerId.unicast k)
              PeerId.unicast = some k := by
  constructor
  · exact (C7_atomicity_amended (mkE2EE none)).1 Op.exportPublicKey
      (.jsError "Key pair not generated") (by decide)
  · obtain ⟨k, hk1, hk2, -⟩ := (C7_atomicity_amended sampleState).2.2.2 samplePubText
      PeerId.unicast none (by decide)
    exact ⟨k, hk1, (hk2 (by decide)).2.2⟩

/-- Claim C9: the default unicast identifier is a symbol, distinct from
every string a caller could supply: a secret stored under a caller-chosen
string `s` is never the entry addressed by the default identifier and vice
versa, also at the level of the `setRemotePublicKey` operation that writes
the store. -/
theorem C9_unicast_sentinel (s : String) (store : SecretStore) (k : SymKey) :
    PeerId.named s ≠ PeerId.unicast ∧
    getSecret (setSecret store (PeerId.named s) k) PeerId.unicast
        = getSecret store PeerId.unicast ∧
    getSecret (setSecret store PeerId.unicast k) (PeerId.named s)
        = getSecret store (PeerId.named s) ∧
    (∀ (st : E2EEState) (remote : PubKeyText) (df : Option Nat),
      getSecret ((setRemotePublicKey st remote (PeerId.named s) df).2).sharedSecrets
          PeerId.unicast
        = getSecret st.sharedSecrets PeerId.unicast) ∧
    (∀ (st : E2EEState) (remote : PubKeyText) (df : Option Nat),
      getSecret ((setRemotePublicKey st remote PeerId.unicast df).2).sharedSecrets
          (PeerId.named s)
        = getSecret st.sharedSecrets (PeerId.named s)) := by
  refine ⟨by simp, getSecret_setSecret_ne store _ _ k (by simp),
    getSecret_setSecret_ne store _ _ k (by simp), ?_, ?_⟩
  · intro st remote df
    simp only [setRemotePublicKey]
    cases hu : unmarshalPublicKey remote st.params.namedCurve <;>
      cases hk : st.keyPair <;> cases df <;>
      first
      | exact getSecret_setSecret_ne st.sharedSecrets PeerId.unicast
          (PeerId.named s) _ (by simp)
      | rfl
  · intro st remote df
    simp only [setRemotePublicKey]
    cases hu : unmarshalPublicKey remote st.params.namedCurve <;>
      cases hk : st.keyPair <;> cases df <;>
      first
      | exact getSecret_setSecret_ne st.sharedSecrets (PeerId.named s)
          PeerId.unicast _ (by simp)
      | rfl

/-- Claim C3 is refuted at this input: on a fresh identity with no secrets
at all, `encrypt` addressed to the identifier `"constructor"` does not
fail with the `StateError` — the property read finds the truthy inherited
`Object.prototype.constructor`, the truthiness precondition passes, and
the provider then rejects with a `TypeError` because the value passed as
the key is not a `CryptoKey`. -/
theorem C3_counterexample :
    getSecret (mkE2EE none).sharedSecrets (PeerId.named "constructor") = none ∧
    (encrypt (mkE2EE none) [72] (PeerId.named "constructor") sampleRand).1
        = .error (.typeError "provided value is not of type CryptoKey") ∧
    (JsError.typeError "provided value is not of type CryptoKey").isStateError
        = false := by
  decide

/-- Claim C3 (amended): `encrypt` evaluates the property
`this.#sharedSecrets[identifier]`.  An established secret — an own entry —
is what that read yields; the call then uses exactly the 16 random bytes
this call obtained from the provider's secure-random source as the
counter, encrypts the UTF-8 bytes of the plaintext under that secret with
AES-CTR at the configured counter bit-length, and returns the
`{buffer, counter}` envelope whose two fields carry one character per
byte, the character's code equal to the byte value.  `encrypt` fails with
the `StateError` exactly when the read yields `undefined`; an identifier
with no established secret whose name hits a truthy inherited
`Object.prototype` member instead passes the precondition and the
provider rejects with a `TypeError`.  The instance state is never
changed. -/
theorem C3_encrypt_amended (st : E2EEState) (m : List Nat) (id : PeerId)
    (rand : List Nat) (hm : ∀ c ∈ m, ValidScalar c) (hr : rand.length = 16)
    (hrb : ∀ b ∈ rand, b < 256) :
    (∀ key, getSecret st.sharedSecrets id = some key →
      readSecret st.sharedSecrets id = .key key) ∧
    (readSecret st.sharedSecrets id = .undefined →
      (encrypt st m id rand).1 = .error (.jsError "Shared secret not set") ∧
      (JsError.jsError "Shared secret not set").isStateError = true) ∧
    (readSecret st.sharedSecrets id = .junk →
      (encrypt st m id rand).1
          = .error (.typeError "provided value is not of type CryptoKey") ∧
      (JsError.typeError "provided value is not of type CryptoKey").isStateError
          = false) ∧
    (∀ key, readSecret st.sharedSecrets id = .key key →
      (encrypt st m id rand).1 = .ok
        { buffer := ctrCrypt key rand st.params.counterLength (utf8Encode m)
          counter := rand } ∧
      rand.length = 16 ∧
      (ctrCrypt key rand st.params.counterLength (utf8Encode m)).length
          = (utf8Encode m).length ∧
      (∀ b ∈ ctrCrypt key rand st.params.counterLength (utf8Encode m), b < 256) ∧
      (∀ b ∈ rand, b < 256)) ∧
    (encrypt st m id rand).2 = st := by
  refine ⟨fun key h => readSecret_of_getSecret _ _ _ h, ?_, ?_, ?_, ?_⟩
  · intro h
    simp [encrypt, h, JsError.isStateError, stateErrorMessages]
  · intro h
    simp [encrypt, h, JsError.isStateError, stateErrorMessages]
  · intro key h
    have hlt : ∀ b ∈ ctrCrypt key rand st.params.counterLength (utf8Encode m),
        b < 256 :=
      ctrStream_lt_256 key rand st.params.counterLength 0 (utf8Encode m)
        (utf8Encode_lt_256 m hm)
    refine ⟨?_, hr, ctrStream_length key rand st.params.counterLength 0 _, hlt, hrb⟩
    simp only [encrypt, h, marshalCiphertext]
    rw [fromCharCode_of_lt _ hlt, fromCharCode_of_lt _ hrb]
  · simp only [encrypt]
    cases readSecret st.sharedSecrets id <;> simp

/-- Witness for the amended C3 at concrete inputs: the envelope of an
encryption under the sample secret, the `StateError` of a fresh identity
at the symbol identifier, and the `TypeError` at the inherited name
`"toString"`. -/
theorem C3_encrypt_amended_witness :
    (encrypt sampleStateWithSecret [72, 105] PeerId.unicast sampleRand).1 = .ok
      { buffer := ctrCrypt sampleSecret sampleRand
          sampleStateWithSecret.params.counterLength (utf8Encode [72, 105])
        counter := sampleRand } ∧
    (encrypt (mkE2EE none) [72, 105] PeerId.unicast sampleRand).1
        = .error (.jsError "Shared secret not set") ∧
    (encrypt (mkE2EE none) [72, 105] (PeerId.named "toString") sampleRand).1
        = .error (.typeError "provided value is not of type CryptoKey") := by
  refine ⟨?_, ?_, ?_⟩
  · exact ((C3_encrypt_amended sampleStateWithSecret [72, 105] PeerId.unicast
      sampleRand (by decide) (by decide) (by decide)).2.2.2.1 sampleSecret
        (by decide)).1
  · exact ((C3_encrypt_amended (mkE2EE none) [72, 105] PeerId.unicast
      sampleRand (by decide) (by decide) (by decide)).2.1 (by decide)).1
  · exact ((C3_encrypt_amended (mkE2EE none) [72, 105] (PeerId.named "toString")
      sampleRand (by decide) (by decide) (by decide)).2.2.1 (by decide)).1

/-- Claim C4 is refuted at this input: on an identity whose key pair has
not been generated, `setRemotePublicKey` with a well-formed remote key text
fails with a `TypeError` coming from the `this.#keyPair!.privateKey` access
on `null` — not with a `StateError`: `src/e2ee.ts` lines 51-60 contain no
key-pair presence check. -/
theorem C4_counterexample :
    (mkE2EE none).keyPair = none ∧
    (setRemotePublicKey (mkE2EE none) samplePubText PeerId.unicast none).1
        = .error (.typeError "Cannot read properties of null") ∧
    (JsError.typeError "Cannot read properties of null").isStateError = false := by
  decide

/-- Claim C4 (amended): on an identity with no key pair, every
`setRemotePublicKey` call fails — with the import's `CryptoError` when the
remote key text fails to import, and otherwise with a `TypeError` from
reading `privateKey` of the `null` key pair — never with a `StateError`,
and it leaves the instance state (in particular the secret store)
unchanged. -/
theorem C4_amended (st : E2EEState) (remote : PubKeyText) (id : PeerId)
    (deriveFail : Option Nat) (h : st.keyPair = none) :
    (∃ e, (setRemotePublicKey st remote id deriveFail).1 = .error e
        ∧ e.isStateError = false) ∧
    (setRemotePublicKey st remote id deriveFail).2 = st := by
  by_cases hcurve : remote.jwk.curve = st.params.namedCurve
  · simp only [setRemotePublicKey, unmarshalPublicKey, if_pos hcurve, h]
    exact ⟨⟨_, rfl, rfl⟩, trivial⟩
  · simp only [setRemotePublicKey, unmarshalPublicKey, if_neg hcurve]
    exact ⟨⟨_, rfl, rfl⟩, trivial⟩

/-- Witness for the amended C4 at a concrete input: a fresh identity and a
remote key on a different curve. -/
theorem C4_amended_witness :
    (∃ e, (setRemotePublicKey (mkE2EE none) ⟨⟨"P-384", 7⟩⟩ (PeerId.named "bob") none).1
        = .error e ∧ e.isStateError = false) ∧
    (setRemotePublicKey (mkE2EE none) ⟨⟨"P-384", 7⟩⟩ (PeerId.named "bob") none).2
        = mkE2EE none :=
  C4_amended (mkE2EE none) ⟨⟨"P-384", 7⟩⟩ (PeerId.named "bob") none (by decide)

/-- Claim C5 (modelled from the spec): the identity provides the
`encryptStream` and `decryptStream` transform stages, and each of them,
invoked with a peer identifier for which no shared secret exists, fails
synchronously at construction time — before any chunk is processed — with
the `StateError`. -/
theorem C5_stream_preconditions (st : E2EEState) (id : PeerId)
    (h : getSecret st.sharedSecrets id = none) :
    encryptStream st id = .error (.jsError "Shared secret not set") ∧
    decryptStream st id = .error (.jsError "Shared secret not set") ∧
    (JsError.jsError "Shared secret not set").isStateError = true := by
  refine ⟨?_, ?_, rfl⟩
  · simp [encryptStream, h]
  · simp [decryptStream, h]

/-- Witness for C5 at a concrete input: a fresh identity with no secrets. -/
theorem C5_stream_preconditions_witness :
    encryptStream (mkE2EE none) (PeerId.named "anything")
        = .error (.jsError "Shared secret not set") ∧
    decryptStream (mkE2EE none) (PeerId.named "anything")
        = .error (.jsError "Shared secret not set") ∧
    (JsError.jsError "Shared secret not set").isStateError = true :=
  C5_stream_preconditions (mkE2EE none) (PeerId.named "anything") (by decide)

/-- Claim C1: for every valid parameter combination and every UTF-8
plaintext, two independently generated identities with identical parameters
that exchange exported public keys and derive shared secrets round-trip:
the envelope one of them encrypts, the other decrypts back to the original
plaintext. -/
theorem C1_roundtrip (p : Params) (_hp : ValidParams p) (sa sb : Nat)
    (m rand : List Nat) (hm : ∀ c ∈ m, ValidScalar c) (_hr : rand.length = 16)
    (hrb : ∀ b ∈ rand, b < 256) :
    roundTripScenario p sa sb m rand = .ok m := by
  simp only [roundTripScenario, mkE2EE, assignDeps, assignParams, paramsToInit,
    defaultDeps, defaultParams, generateKeyPair, exportPublicKey,
    setRemotePublicKey, unmarshalPublicKey, encrypt, decrypt, marshalCiphertext,
    unmarshalCiphertext, emptySecrets, setSecret, insertEntry, readSecret,
    lookupEntry, deriveKey, Option.getD, Option.bind, if_pos]
  rw [toUint8Array_fromCharCode rand hrb,
    toUint8Array_fromCharCode
      (ctrCrypt { length := p.keyLength, a := min sb sa, b := max sb sa }
        rand p.counterLength (utf8Encode m))
      (ctrStream_lt_256 _ _ _ _ _ (utf8Encode_lt_256 m hm)),
    min_comm sa sb, max_comm sa sb, ctrCrypt_ctrCrypt,
    utf8Decode_utf8Encode m hm]

/-- Witness for C1 at concrete inputs: the default parameters are a valid
combination, and a three-character plaintext (with a one-, two- and
four-byte character) round-trips between two identities with seeds 0
and 1. -/
theorem C1_roundtrip_witness :
    ValidParams defaultParams ∧
    roundTripScenario defaultParams 0 1 [72, 955, 120000] sampleRand
        = .ok [72, 955, 120000] := by
  refine ⟨by decide, ?_⟩
  exact C1_roundtrip defaultParams (by decide) 0 1 [72, 955, 120000] sampleRand
    (by decide) (by decide) (by decide)

/-- Claim C8 is refuted at this input: `c8Sender` encrypts the empty
plaintext for the peer it calls "B"; the resulting envelope, decrypted by
`c8Wrong` under its distinct secret for "A", yields exactly the original
plaintext and raises no error — AES-CTR over an empty buffer is the empty
buffer under any key, so the claim's "differing text or CryptoError" fails
for the empty message. -/
theorem C8_counterexample :
    getSecret c8Sender.sharedSecrets (PeerId.named "B")
        ≠ getSecret c8Wrong.sharedSecrets (PeerId.named "A") ∧
    (encrypt c8Sender [] (PeerId.named "B") sampleRand).1
        = .ok { buffer := [], counter := fromCharCode sampleRand } ∧
    (decrypt c8Wrong { buffer := [], counter := fromCharCode sampleRand }
        (PeerId.named "A")).1 = .ok [] := by
  decide

/-- Claim C8 (amended): the result of `encrypt` or `decrypt` at identifier
`i` is determined only by the secret established under `i`, the parameters
and the operation's inputs, never by another peer's entry — two identities
agreeing on the established secret at `i` behave identically there; and an
envelope addressed to one peer, carrying a plaintext that contains no
replacement character U+FFFD, decrypted under a secret whose keystream
differs from the addressee's at some byte position within the message,
yields text differing from the plaintext.  (When the keystreams coincide
on the whole message — in particular for the empty message — decryption
under the wrong secret returns the plaintext exactly, which is what
refutes the unconditional claim; and a plaintext containing U+FFFD can in
principle also be reproduced from garbled bytes by the decoder's
replacement behaviour.) -/
theorem C8_per_peer_isolation (m rand : List Nat)
    (hm : ∀ c ∈ m, ValidScalar c) (hrb : ∀ b ∈ rand, b < 256) :
    (∀ (st1 st2 : E2EEState) (id : PeerId) (env : Envelope) (k : SymKey),
      st1.params = st2.params →
      getSecret st1.sharedSecrets id = some k →
      getSecret st2.sharedSecrets id = some k →
      (encrypt st1 m id rand).1 = (encrypt st2 m id rand).1 ∧
      (decrypt st1 env id).1 = (decrypt st2 env id).1) ∧
    (∀ (stA stC : E2EEState) (idB idA : PeerId) (kB kA : SymKey)
        (env : Envelope) (j : Nat),
      stA.params = stC.params →
      getSecret stA.sharedSecrets idB = some kB →
      getSecret stC.sharedSecrets idA = some kA →
      (encrypt stA m idB rand).1 = .ok env →
      65533 ∉ m →
      j < (utf8Encode m).length →
      ksByte kB rand stA.params.counterLength j
          ≠ ksByte kA rand stA.params.counterLength j →
      (decrypt stC env idA).1 ≠ .ok m) := by
  constructor
  · intro st1 st2 id env k hparams hs1 hs2
    have hr1 := readSecret_of_getSecret _ _ _ hs1
    have hr2 := readSecret_of_getSecret _ _ _ hs2
    constructor
    · simp only [encrypt, hr1, hr2, hparams]
    · simp only [decrypt, hr1, hr2, hparams]
  · intro stA stC idB idA kB kA env j hparams hB hA henc hnf hj hks
    have hB' := readSecret_of_getSecret _ _ _ hB
    have hA' := readSecret_of_getSecret _ _ _ hA
    simp only [encrypt, hB'] at henc
    replace henc : marshalCiphertext
        (ctrCrypt kB rand stA.params.counterLength (utf8Encode m)) rand = env := by
      simpa using henc
    subst henc
    simp only [decrypt, hA', marshalCiphertext, unmarshalCiphertext, ← hparams]
    rw [toUint8Array_fromCharCode rand hrb,
      toUint8Array_fromCharCode
        (ctrCrypt kB rand stA.params.counterLength (utf8Encode m))
        (ctrStream_lt_256 _ _ _ _ _ (utf8Encode_lt_256 m hm))]
    intro hcontra
    have hdec : utf8Decode (ctrCrypt kA rand stA.params.counterLength
        (ctrCrypt kB rand stA.params.counterLength (utf8Encode m))) = m := by
      simpa using hcontra
    have heq : ctrCrypt kA rand stA.params.counterLength
        (ctrCrypt kB rand stA.params.counterLength (utf8Encode m)) = utf8Encode m :=
      utf8Encode_of_decode_no_replacement
        (ctrCrypt kA rand stA.params.counterLength
          (ctrCrypt kB rand stA.params.counterLength (utf8Encode m))).length
        _ m le_rfl hdec hnf
    have hx1 := ctrStream_getElem? kA rand stA.params.counterLength 0 j
      (ctrCrypt kB rand stA.params.counterLength (utf8Encode m))
    have hx2 := ctrStream_getElem? kB rand stA.params.counterLength 0 j (utf8Encode m)
    have hmj := List.getElem?_eq_getElem (l := utf8Encode m) (n := j) hj
    have hj' : (ctrCrypt kA rand stA.params.counterLength
        (ctrCrypt kB rand stA.params.counterLength (utf8Encode m)))[j]?
        = (utf8Encode m)[j]? := by rw [heq]
    rw [show ctrCrypt kA rand stA.params.counterLength
        (ctrCrypt kB rand stA.params.counterLength (utf8Encode m))
      = ctrStream kA rand stA.params.counterLength 0
        (ctrCrypt kB rand stA.params.counterLength (utf8Encode m)) from rfl] at hj'
    rw [hx1] at hj'
    rw [show ctrCrypt kB rand stA.params.counterLength (utf8Encode m)
      = ctrStream kB rand stA.params.counterLength 0 (utf8Encode m) from rfl] at hj'
    rw [hx2, hmj] at hj'
    simp only [Option.map_some', Nat.zero_add, Option.some.injEq] at hj'
    have hz : ksByte kB rand stA.params.counterLength j
        ^^^ ksByte kA rand stA.params.counterLength j = 0 := by
      have h1 : (utf8Encode m)[j] ^^^
          (ksByte kB rand stA.params.counterLength j
            ^^^ ksByte kA rand stA.params.counterLength j)
          = (utf8Encode m)[j] := by
        rw [← Nat.xor_assoc]
        exact hj'
      have h2 := congrArg (fun t => (utf8Encode m)[j] ^^^ t) h1
      simpa [← Nat.xor_assoc, Nat.xor_self, Nat.zero_xor] using h2
    exact hks (Nat.xor_eq_zero.mp hz)

/-- Witness for the amended C8 at concrete inputs: a one-character message
encrypted by `c8Sender` for "B" does not decrypt to itself under
`c8Wrong`'s secret for "A", whose keystream differs at byte 0. -/
theorem C8_per_peer_isolation_witness :
    (decrypt c8Wrong
        { buffer := fromCharCode (ctrCrypt { length := 256, a := 0, b := 1 }
            sampleRand 64 (utf8Encode [72]))
          counter := fromCharCode sampleRand }
        (PeerId.named "A")).1 ≠ .ok [72] := by
  exact (C8_per_peer_isolation [72] sampleRand (by decide) (by decide)).2
    c8Sender c8Wrong (PeerId.named "B") (PeerId.named "A")
    { length := 256, a := 0, b := 1 } { length := 256, a := 2, b := 3 }
    { buffer := fromCharCode (ctrCrypt { length := 256, a := 0, b := 1 }
        sampleRand 64 (utf8Encode [72]))
      counter := fromCharCode sampleRand }
    0 (by decide) (by decide) (by decide) (by decide) (by decide) (by decide)
    (by decide)

/-- Witness for C6 at concrete inputs: restoring a marshalled identity
carries over its key pair and parameters and establishes no peer secret. -/
theorem C6_unmarshal_witness :
    (unmarshal { keyPair := some sampleKeyPair, params := defaultParams } none).keyPair
        = some sampleKeyPair ∧
    (unmarshal { keyPair := some sampleKeyPair, params := defaultParams } none).params
        = defaultParams ∧
    getSecret (unmarshal { keyPair := some sampleKeyPair, params := defaultParams }
        none).sharedSecrets (PeerId.named "party7") = none := by
  refine ⟨(C6_unmarshal { keyPair := some sampleKeyPair, params := defaultParams }
      none).2.1,
    (C6_unmarshal { keyPair := some sampleKeyPair, params := defaultParams } none).1,
    (C6_unmarshal { keyPair := some sampleKeyPair, params := defaultParams }
      none).2.2.2 (PeerId.named "party7")⟩

/-- Witness for C9 at concrete inputs: even the string "unicast" is
distinct from the unicast symbol, and a secret stored under it is not
visible at the default identifier. -/
theorem C9_unicast_sentinel_witness :
    PeerId.named "unicast" ≠ PeerId.unicast ∧
    getSecret (setSecret emptySecrets (PeerId.named "unicast") sampleSecret)
        PeerId.unicast = none := by
  refine ⟨(C9_unicast_sentinel "unicast" emptySecrets sampleSecret).1, ?_⟩
  exact ((C9_unicast_sentinel "unicast" emptySecrets sampleSecret).2.1).trans rfl

/-- Witness for C10 at concrete inputs: a partial params object overrides
only the field it provides, and running an operation leaves the parameters
unchanged. -/
theorem C10_constructor_defaults_witness :
    (mkE2EE (some ⟨none, some ⟨some 128, none, none⟩⟩)).params.counterLength = 128 ∧
    (runOp sampleState Op.marshal).2.params = sampleState.params := by
  constructor
  · exact (C10_constructor_defaults.1
      (some ⟨none, some ⟨some 128, none, none⟩⟩)).1.trans (by decide)
  · exact C10_constructor_defaults.2 sampleState Op.marshal

end E2EE
